import Mathlib

/-!
Verification development for the Ren-C evaluator core (error handling,
trap/unwind, function construction, object datatype).

Shallow embedding of:
  - src/core/c-error.c   (Push_Trap_Helper, Trapped_Helper_Halted, Fail_Core,
                          Find_Error_For_Code, Make_Error_Object_Throws,
                          Exit_Status_From_Value)
  - src/core/c-function.c (Make_Paramlist_Managed, Make_Function)
  - src/core/t-object.c  (Equal_Object, Same_Object, CT_Object, REBTYPE(Object))

Modelling conventions:
  - REBVAL cells are the inductive `RVal`; reading a union member of the
    wrong kind (which C leaves unspecified) is modelled by a fixed junk
    default (0 for symbols, 0 for integers).
  - Pointer identity of series/frames is modelled by a numeric `id` field;
    fresh allocations take ids from a counter, so id equality is pointer
    equality.
  - Machine integers: REBI64 is `Int`; VAL_INT32 truncation and the
    REBCNT (u32) cast are explicit `% 2 ^ 32` arithmetic.
  - `assert(...)` is compiled out in release builds.  Asserts guarding
    states unreachable from the modelled entry points are modelled as an
    `ASSERT_FAIL` error result; the reachable assert in Find_Error_For_Code
    (message must be block/string) is modelled with release semantics,
    i.e. execution continues past it.
-/

namespace RenC

/-! ## Symbols and constants

Symbol interning and canonization live outside the provided sources;
symbols are modelled as their canon index (a `Nat`), so SAME_SYM /
VAL_TYPESET_CANON comparisons are plain equality.  The concrete numbers
are arbitrary but distinct. -/

def SYM_0 : Nat := 0
def SYM_USER : Nat := 11
def SYM_MESSAGE : Nat := 12
def SYM_CODE : Nat := 13
def SYM_TYPE : Nat := 14
def SYM_ID : Nat := 15
def SYM_WHERE : Nat := 16
def SYM_NEAR : Nat := 17
def SYM_CATCH : Nat := 18
def SYM_THROW : Nat := 19
def SYM_RETURN : Nat := 20

/-- Error numbers (from the generated errors.h, values arbitrary here;
only RE_USER's value (1000, the user-error threshold) is meaningful to
the claims). -/
def RE_USER : Int := 1000

def RE_HALT : Int := 10

def RE_INVALID_ERROR : Nat := 330

def RE_BAD_FUNC_DEF : Nat := 340

def RE_DUP_VARS : Nat := 341

/-- Marker for results of debug-build `assert` failures at states that the
modelled entry points never reach. -/
def ASSERT_FAIL : Nat := 999

/-- Datatype kind bytes (enum Reb_Kind); values arbitrary but distinct. -/
def REB_WORD : Nat := 4
def REB_NONE : Nat := 3
def REB_OBJECT : Nat := 24
def REB_ERROR : Nat := 25

/-- FLAGIT_64: one bit per datatype kind in a 64-bit typeset. -/
def FLAGIT64 (k : Nat) : Nat := 2 ^ k

/-- ALL_64: every datatype bit set. -/
def ALL_64 : Nat := 2 ^ 64 - 1

/-! ## Value cells -/

/-- A REBVAL cell, restricted to the kinds the modelled routines
inspect.  `endV` is the END marker cell that terminates every array.
`blockV` and `otherV` carry no payload we need. -/
inductive RVal where
  | noneV
  | unsetV
  | logicV (b : Bool)
  | integerV (n : Int)
  | wordV (sym : Nat)
  | stringV (s : String)
  | blockV (id : Nat)
  | errorV (num : Int)
  | endV
  | otherV
deriving DecidableEq, Repr

def isWordV : RVal → Bool
  | RVal.wordV _ => true
  | _ => false

def isStringV : RVal → Bool
  | RVal.stringV _ => true
  | _ => false

def isBlockV : RVal → Bool
  | RVal.blockV _ => true
  | _ => false

def isIntegerV : RVal → Bool
  | RVal.integerV _ => true
  | _ => false

/-- VAL_WORD_SYM.  On a non-word cell this reads the wrong union member;
the unspecified bits are modelled as 0. -/
def wordSymOf : RVal → Nat
  | RVal.wordV s => s
  | _ => 0

/-- VAL_INT64 read; junk (0) on a non-integer cell. -/
def intOfV : RVal → Int
  | RVal.integerV n => n
  | _ => 0

/-- VAL_INT32: truncation of a 64-bit integer to 32-bit signed
(two's-complement wrap). -/
def int32 (n : Int) : Int := (n + 2 ^ 31) % 2 ^ 32 - 2 ^ 31

/-! ## Exit_Status_From_Value (c-error.c:1255) -/

/-- Exit_Status_From_Value: map a final program value to an OS exit
status.  Mirrors the if-chain: INTEGER! passes through VAL_INT32,
UNSET!/NONE! give 0, ERROR! gives VAL_ERR_NUM, anything else gives 1. -/
def Exit_Status_From_Value (value : RVal) : Int :=
  match value with
  | RVal.integerV n => int32 n
  | RVal.unsetV => 0
  | RVal.noneV => 0
  | RVal.errorV num => num
  | _ => 1

/-! ## Object frames and comparison (t-object.c) -/

/-- An object frame: varlist (`vals`, slot 0 = SELF) plus its word series
(`words`, the keylist).  `id` models pointer identity of the varlist. -/
structure ObjFrame where
  id : Nat
  vals : List RVal
  words : List RVal
deriving DecidableEq, Repr

/-- An OBJECT!/ERROR! value: kind byte plus frame reference. -/
structure ObjVal where
  type : Nat
  frame : ObjFrame
deriving DecidableEq, Repr

/-- Same_Object (t-object.c:33): same VAL_TYPE and same frame pointer. -/
def Same_Object (val arg : ObjVal) : Bool :=
  arg.type == val.type && val.frame.id == arg.frame.id

/-- Equal_Object (t-object.c:44), parameterized by the external value
comparator Cmp_Value (0 means "equal").  Conventions: type mismatch is
unequal; identical frame pointers are equal; then tails of the varlists
and of the word series must agree and every word/value pair at indices
1 .. tail-1 must compare equal.  Slot 0 (SELF) is never compared.
Out-of-bounds reads (the loop trusts f1->tail for the word series)
yield the END cell. -/
def Equal_Object (cmp : RVal → RVal → Int) (val arg : ObjVal) : Bool :=
  if arg.type ≠ val.type then false
  else
    let f1 := val.frame
    let f2 := arg.frame
    if f1.id = f2.id then true
    else if f1.vals.length ≠ f2.vals.length then false
    else
      let w1 := f1.words
      let w2 := f2.words
      if w1.length ≠ w2.length then false
      else
        (List.range' 1 (f1.vals.length - 1)).all fun n =>
          cmp (w1.getD n RVal.endV) (w2.getD n RVal.endV) == 0 &&
          cmp (f1.vals.getD n RVal.endV) (f2.vals.getD n RVal.endV) == 0

/-- CT_Object (t-object.c:200): mode < 0 is -1, mode 3 is identity
(Same_Object), any other mode is Equal_Object. -/
def CT_Object (cmp : RVal → RVal → Int) (a b : ObjVal) (mode : Int) : Int :=
  if mode < 0 then -1
  else if mode = 3 then (if Same_Object a b then 1 else 0)
  else (if Equal_Object cmp a b then 1 else 0)

/-! ## REBTYPE(Object) actions A_LENGTHQ and A_TAILQ (t-object.c:438,507) -/

def A_LENGTHQ : Nat := 1
def A_TAILQ : Nat := 2

/-- The A_LENGTHQ and A_TAILQ arms of the REBTYPE(Object) dispatch.
LENGTH? of an object is SERIES_TAIL(frame) - 1 (the SELF slot at index 0
is not counted); TAIL? is SERIES_TAIL(frame) <= 1.  A non-OBJECT! value
(e.g. ERROR!) takes the Trap_Action_DEAD_END path, modelled as an error
result.  Other actions are not modelled here. -/
def REBTYPE_Object (action : Nat) (value : ObjVal) : Except Unit RVal :=
  if action = A_LENGTHQ then
    if value.type = REB_OBJECT then
      Except.ok (RVal.integerV ((value.frame.vals.length : Int) - 1))
    else Except.error ()
  else if action = A_TAILQ then
    if value.type = REB_OBJECT then
      Except.ok (RVal.logicV (decide (value.frame.vals.length ≤ 1)))
    else Except.error ()
  else Except.error ()

/-! ## Trap/unwind machinery (c-error.c:36, 64, 171)

The global interpreter state touched by Push_Trap_Helper /
Trapped_Helper_Halted is gathered into `Machine`:
  - `dsp`   : the data stack pointer DSP
  - `dsf`   : the call frame chain DSF/CS_Top, top frame first; frames are
              identified by their allocation id (pointer identity) and the
              chain is the linked list through `call->prior`
  - `series_guard_tail`, `value_guard_tail` : tails of GC_Series_Guard and
              GC_Value_Guard
  - `gc_disable` : GC_Disabled
  - `manuals` : the contents of GC_Manuals (series ids, in creation order,
              so SERIES_TAIL(GC_Manuals) = manuals.length)
  - `saved` : the Saved_State chain, innermost state first (the C chains
              states through `s->last_state`; with the innermost state at
              the head, `state->last_state` is the tail of this list)
  - `freed_frames`, `freed_series` : ghost logs of what Free_Call and
              Free_Series released, for stating the rollback property
  - `next_id` : allocation counter providing fresh pointer identities -/

/-- REBOL_STATE: the snapshot taken by Push_Trap_Helper. -/
structure RebState where
  dsp : Int
  dsf : List Nat
  series_guard_tail : Nat
  value_guard_tail : Nat
  gc_disable : Bool
  manuals_tail : Nat
  error_frame : Option Int
deriving DecidableEq, Repr

structure Machine where
  dsp : Int
  dsf : List Nat
  series_guard_tail : Nat
  value_guard_tail : Nat
  gc_disable : Bool
  manuals : List Nat
  saved : List RebState
  freed_frames : List Nat
  freed_series : List Nat
  next_id : Nat
deriving DecidableEq, Repr

/-- Push_Trap_Helper (c-error.c:36): snapshot DSP, DSF, both guard
tails, GC_Disabled and SERIES_TAIL(GC_Manuals), chain onto the previous
Saved_State, and null the error frame slot. -/
def Push_Trap_Helper (m : Machine) : Machine :=
  { m with saved :=
      { dsp := m.dsp
        dsf := m.dsf
        series_guard_tail := m.series_guard_tail
        value_guard_tail := m.value_guard_tail
        gc_disable := m.gc_disable
        manuals_tail := m.manuals.length
        error_frame := none } :: m.saved }

/-- Fail_Core (c-error.c:171), up to the longjmp: record the error into
the innermost saved state (`Saved_State->error_frame = frame`); the
error frame is identified by its ERR_NUM.  With no saved state the C
panics; that stuck case is modelled as the identity. -/
def Fail_Core (errnum : Int) (m : Machine) : Machine :=
  match m.saved with
  | [] => m
  | s :: rest => { m with saved := { s with error_frame := some errnum } :: rest }

/-- The frame-releasing loop of Trapped_Helper_Halted:
`while (call != state->dsf) { prior = call->prior; Free_Call(call); call = prior; }`.
Pointer equality of chain positions is list equality (ids are unique).
Returns the remaining chain and the freed frames in freeing order.
Walking off the end (impossible when the target is a suffix) stops. -/
def freeFramesUntil (call target : List Nat) : List Nat × List Nat :=
  if call = target then (call, [])
  else
    match call with
    | [] => ([], [])
    | c :: prior =>
      let r := freeFramesUntil prior target
      (r.1, c :: r.2)

/-- The manual-series freeing loop of Trapped_Helper_Halted, on the
reversed GC_Manuals contents (most recent first):
`while (GC_Manuals->tail != state->manuals_tail) Free_Series(...[tail - 1]);`
pops the most recent series until the tail matches the snapshot.
Returns the remaining (still reversed) contents and the freed series in
freeing order. -/
def freeManualsRev (rev : List Nat) (target : Nat) : List Nat × List Nat :=
  if rev.length ≤ target then (rev, [])
  else
    match rev with
    | [] => ([], [])
    | s :: rest =>
      let r := freeManualsRev rest target
      (r.1, s :: r.2)

def freeManualsTo (manuals : List Nat) (target : Nat) : List Nat × List Nat :=
  let r := freeManualsRev manuals.reverse target
  (r.1.reverse, r.2)

/-- Trapped_Helper_Halted (c-error.c:64): responding to the longjmp.
Frees the call frames pushed since the trap, restores DSF and DSP,
frees the manual series created since the trap, rolls both guard-stack
tails and GC_Disabled back to the snapshot, and pops the saved-state
chain (`Saved_State = state->last_state`).  Returns whether the trapped
error was RE_HALT.  The state argument is the head of the saved chain
(the state whose setjmp returned). -/
def Trapped_Helper_Halted (m : Machine) : Bool × Machine :=
  match m.saved with
  | [] => (false, m)
  | state :: last_state =>
    let halted := state.error_frame == some RE_HALT
    let framesR := freeFramesUntil m.dsf state.dsf
    let manualsR := freeManualsTo m.manuals state.manuals_tail
    (halted,
      { m with
        dsf := state.dsf
        dsp := state.dsp
        manuals := manualsR.1
        series_guard_tail := state.series_guard_tail
        value_guard_tail := state.value_guard_tail
        gc_disable := state.gc_disable
        saved := last_state
        freed_frames := framesR.2 ++ m.freed_frames
        freed_series := manualsR.2 ++ m.freed_series })

/-- The operations a client may perform between PUSH_TRAP and `fail`:
allocate a manually-managed series, push a call frame, push onto either
GC guard stack, or push a value on the data stack. -/
inductive TrapOp where
  | allocManual
  | pushFrame
  | pushGuardSeries
  | pushGuardValue
  | pushData
deriving DecidableEq, Repr

def applyTrapOp (m : Machine) : TrapOp → Machine
  | TrapOp.allocManual =>
    { m with manuals := m.manuals ++ [m.next_id], next_id := m.next_id + 1 }
  | TrapOp.pushFrame =>
    { m with dsf := m.next_id :: m.dsf, next_id := m.next_id + 1 }
  | TrapOp.pushGuardSeries =>
    { m with series_guard_tail := m.series_guard_tail + 1 }
  | TrapOp.pushGuardValue =>
    { m with value_guard_tail := m.value_guard_tail + 1 }
  | TrapOp.pushData =>
    { m with dsp := m.dsp + 1 }

def applyTrapOps (m : Machine) (ops : List TrapOp) : Machine :=
  ops.foldl applyTrapOp m

/-- One full trapped round trip: push a trap, run a sequence of
allocations/pushes, fail with some error, and handle the longjmp. -/
def trapRoundTrip (m : Machine) (ops : List TrapOp) (errnum : Int) : Machine :=
  (Trapped_Helper_Halted (Fail_Core errnum (applyTrapOps (Push_Trap_Helper m) ops))).2

/-! ## Error catalog and Find_Error_For_Code (c-error.c:310)

The catalog (system/catalog/errors) is boot-loaded from %errors.r, which
is not among the provided sources; the development is parameterized by
an arbitrary catalog of this shape.  A category object's frame is
SELF(0), CODE:(1), TYPE:(2) and then one message per error id, so
SERIES_TAIL(category) = 3 + messages.length; the categories frame is
SELF(0) followed by one category object per slot, so
SERIES_TAIL(categories) = 1 + categories.length. -/

structure ErrCategory where
  /-- key symbol of this category in the categories frame keylist -/
  sym : Nat
  /-- FRM_VALUE(category, 1), the CODE: field -/
  codeVal : RVal
  /-- FRM_VALUE(category, 2), the TYPE: field -/
  typeVal : RVal
  /-- id key symbol and message template for indices 3.. -/
  messages : List (Nat × RVal)
deriving DecidableEq, Repr

/-- Find_Error_For_Code (c-error.c:310): two-level lookup,
category = code / 100, offset = code % 100.  The id/type out-parameters
are threaded through and returned, so "no write" is "returned
unchanged".  Sanity checks that return NULL in both build modes
(value at categories slot not an object; CODE: not an integer; TYPE:
not a string) are kept.  The message bound check is `n + 3 >
SERIES_TAIL(category)`, which admits offset == messages.length; at that
boundary FRM_VALUE reads the frame's END marker and FRM_KEY reads the
keylist's END cell (junk symbol, modelled 0) — the debug build fails
`assert(IS_BLOCK(message) || IS_STRING(message))` there, the release
build continues. -/
def Find_Error_For_Code (cats : List ErrCategory) (id_out type_out : RVal)
    (code : Nat) : Option RVal × RVal × RVal :=
  let n := code / 100
  if n + 1 > 1 + cats.length then (none, id_out, type_out)
  else
    match cats.get? n with
    | none => (none, id_out, type_out)
    | some category =>
      let n2 := code % 100
      if n2 + 3 > 3 + category.messages.length then (none, id_out, type_out)
      else if !(isIntegerV category.codeVal) then (none, id_out, type_out)
      else if !(isStringV category.typeVal) then (none, id_out, type_out)
      else
        let message :=
          match category.messages.get? n2 with
          | some p => p.2
          | none => RVal.endV
        let idSym :=
          match category.messages.get? n2 with
          | some p => p.1
          | none => 0
        (some message, RVal.wordV idSym, RVal.wordV category.sym)

/-! ## Make_Error_Object_Throws (c-error.c:466)

The error-object fields the validation logic reads and writes. The root
error object template ROOT_ERROBJ comes from %sysobj.r (not among the
provided sources); per the comment at c-error.c:538 its default state is
code: none, type: 'user, id: 'message, message: none. -/

structure ErrorObj where
  code : RVal
  type : RVal
  id : RVal
  message : RVal
deriving DecidableEq, Repr

/-- Modelled from the spec (and the comment at c-error.c:538): the
ROOT_ERROBJ standard error template from %sysobj.r, which is not among
the provided sources.  Fields beyond code/type/id/message (near, where)
default to none and are not tracked. -/
def rootErrorFields : ErrorObj :=
  { code := RVal.noneV
    type := RVal.wordV SYM_USER
    id := RVal.wordV SYM_MESSAGE
    message := RVal.noneV }

/-- Modelled from the spec: the root error object's frame layout used by
Find_Word_Index(frame, ...) in the TYPE:/ID: reconciliation branch.
Spec section 3 lists the fixed fields "code, type, id, message, where,
near"; SELF is slot 0, so the field indices are 1..6 (0 = not found). -/
def errorFrameIndex (sym : Nat) : Int :=
  if sym = SYM_CODE then 1
  else if sym = SYM_TYPE then 2
  else if sym = SYM_ID then 3
  else if sym = SYM_MESSAGE then 4
  else if sym = SYM_WHERE then 5
  else if sym = SYM_NEAR then 6
  else 0

/-- Find_Word_Value over a category object frame: SELF is skipped, then
CODE:, TYPE: and the message ids are searched in order. -/
def findWordValueInCategory (c : ErrCategory) (sym : Nat) : Option RVal :=
  if sym = SYM_CODE then some c.codeVal
  else if sym = SYM_TYPE then some c.typeVal
  else (c.messages.find? (fun p => p.1 == sym)).map (fun p => p.2)

/-- The `code < RE_USER` validation block (c-error.c:573-624).  A
supplied MESSAGE: is assumed wrong; the code (as REBCNT cast of
VAL_INT32) must have a catalog template; a supplied ID: must be a word
with the catalog id's symbol; a supplied TYPE: must (through the check
as written, which re-tests IS_WORD on the already-normalized id field)
have the catalog type's symbol.  Both id and type are then normalized
to the catalog words. -/
def validateBelowUser (cats : List ErrCategory) (e : ErrorObj) (n : Int) :
    Except Nat ErrorObj :=
  if e.message ≠ RVal.noneV then Except.error RE_INVALID_ERROR
  else
    match Find_Error_For_Code cats RVal.noneV RVal.noneV
        (Int.toNat (int32 n % 2 ^ 32)) with
    | (none, _, _) => Except.error RE_INVALID_ERROR
    | (some msg, idw, tyw) =>
      let e1 : ErrorObj := { e with message := msg }
      if e1.id ≠ RVal.noneV ∧ (¬ isWordV e1.id = true ∨ wordSymOf e1.id ≠ wordSymOf idw)
      then Except.error RE_INVALID_ERROR
      else
        let e2 : ErrorObj := { e1 with id := idw }
        if e2.type ≠ RVal.noneV ∧ (¬ isWordV e2.id = true ∨ wordSymOf e2.type ≠ wordSymOf tyw)
        then Except.error RE_INVALID_ERROR
        else Except.ok { e2 with type := tyw }

/-- The no-CODE:, TYPE:+ID:-words reconciliation block
(c-error.c:625-695).  The categories frame is searched for the TYPE:
word; if found, the ID: word is looked up in that category (its frame
holds CODE:, TYPE: and the ids); a hit requires MESSAGE: to be none and
computes a code from the category code plus Find_Word_Index arithmetic
over the error frame; a miss is invalid; an unknown type gets RE_USER. -/
def validateTypeId (cats : List ErrCategory) (e : ErrorObj)
    (tySym idSym : Nat) : Except Nat ErrorObj :=
  match cats.find? (fun c => c.sym == tySym) with
  | some category =>
    let catCode : Int := intOfV category.codeVal
    match findWordValueInCategory category idSym with
    | some msg =>
      if e.message ≠ RVal.noneV then Except.error RE_INVALID_ERROR
      else
        Except.ok { e with
          message := msg
          code := RVal.integerV
            (catCode + errorFrameIndex idSym - errorFrameIndex SYM_TYPE - 1) }
    | none => Except.error RE_INVALID_ERROR
  | none => Except.ok { e with code := RVal.integerV RE_USER }

/-- The fallback validation block (c-error.c:696-729): a none CODE:
becomes RE_USER, an integer CODE: must equal RE_USER, any other CODE: is
invalid; then ID:/TYPE: must be word-or-none and MESSAGE:
block-or-string-or-none. -/
def validateGeneric (e : ErrorObj) : Except Nat ErrorObj :=
  let step1 : Except Nat ErrorObj :=
    if e.code = RVal.noneV then Except.ok { e with code := RVal.integerV RE_USER }
    else
      match e.code with
      | RVal.integerV n =>
        if int32 n ≠ RE_USER then Except.error RE_INVALID_ERROR else Except.ok e
      | _ => Except.error RE_INVALID_ERROR
  match step1 with
  | Except.error k => Except.error k
  | Except.ok e1 =>
    if (¬ (isWordV e1.id = true ∨ e1.id = RVal.noneV))
        ∨ (¬ (isWordV e1.type = true ∨ e1.type = RVal.noneV))
        ∨ (¬ (isBlockV e1.message = true ∨ isStringV e1.message = true
              ∨ e1.message = RVal.noneV))
    then Except.error RE_INVALID_ERROR
    else Except.ok e1

/-- The full validation chain of Make_Error_Object_Throws
(c-error.c:564-731): integer codes below RE_USER (compared through
VAL_INT32) are checked against the catalog, integer codes at or above it
pass untouched; otherwise word TYPE: and ID: are reconciled with the
catalog; otherwise the generic user-error rules apply. -/
def validateError (cats : List ErrCategory) (e : ErrorObj) :
    Except Nat ErrorObj :=
  match e.code with
  | RVal.integerV n =>
    if int32 n < RE_USER then validateBelowUser cats e n else Except.ok e
  | _ =>
    match e.type, e.id with
    | RVal.wordV tySym, RVal.wordV idSym => validateTypeId cats e tySym idSym
    | _, _ => validateGeneric e

/-- The argument shapes Make_Error_Object_Throws dispatches on.  The
collaborators that produce the error fields are outside the provided
sources, so their outcome is carried in the constructor:
  - `fromError` / `fromObject`: the field contents of
    Merge_Frames(root_frame, arg) (merge per spec 4.4: overlay wins);
  - `fromBlock`: the outcome of the MAKE OBJECT!-style evaluation of the
    block — either a thrown signal (DO_ARRAY_THROWS true) or the
    constructed frame's field contents;
  - `fromString`: the string;
  - `otherArg`: any other datatype. -/
inductive MakeErrArg where
  | fromError (merged : ErrorObj)
  | fromObject (merged : ErrorObj)
  | fromBlock (thrown : Option RVal) (constructed : ErrorObj)
  | fromString (s : String)
  | otherArg
deriving DecidableEq, Repr

/-- The outcome of Make_Error_Object_Throws when it returns: TRUE with
the thrown value in `out`, or FALSE with the completed error object. -/
inductive MakeErrResult where
  | threw (v : RVal)
  | made (e : ErrorObj)
deriving DecidableEq, Repr

/-- Make_Error_Object_Throws (c-error.c:466).  An error or object is
merged with the root template and validated; a block is evaluated as an
object constructor, and a thrown signal from that evaluation is
returned immediately (TRUE) without validation; a string becomes a copy
of the root template with the message filled in (code stays none until
validation assigns RE_USER); anything else fails with RE_INVALID_ERROR.
A `fail (Error (RE_INVALID_ERROR, ...))` longjmp is the `Except.error`
outcome. -/
def Make_Error_Object_Throws (cats : List ErrCategory) (arg : MakeErrArg) :
    Except Nat MakeErrResult :=
  match arg with
  | MakeErrArg.fromError e => (validateError cats e).map MakeErrResult.made
  | MakeErrArg.fromObject e => (validateError cats e).map MakeErrResult.made
  | MakeErrArg.fromBlock (some v) _ => Except.ok (MakeErrResult.threw v)
  | MakeErrArg.fromBlock none e => (validateError cats e).map MakeErrResult.made
  | MakeErrArg.fromString s =>
    (validateError cats { rootErrorFields with message := RVal.stringV s }).map
      MakeErrResult.made
  | MakeErrArg.otherArg => Except.error RE_INVALID_ERROR

/-- Catalog sanity: interned symbols are never SYM_0. -/
def catalogSymsPositive (cats : List ErrCategory) : Bool :=
  cats.all (fun c => decide (0 < c.sym))

/-! ## Function spec analysis (c-function.c:131 Make_Paramlist_Managed,
c-function.c:526 Make_Function) -/

/-- The word kinds a function spec element can have (ANY_WORD).  `issueK`
stands for the ANY_WORD kinds the parameter classification switch does
not handle (its default case fails). -/
inductive WordKind where
  | wordK
  | getWordK
  | litWordK
  | refineK
  | setWordK
  | issueK
deriving DecidableEq, Repr

/-- The tags Make_Function's spec scan compares against (ROOT_*_TAG).
`tagOperator` is the tag that flags the operator (OP!-style) calling
convention. -/
inductive FuncTag where
  | tagTransparent
  | tagOperator
  | tagLocal
  | tagOther
deriving DecidableEq, Repr

/-- An element of a legacy leading attribute block: a word (by symbol) or
anything else. -/
inductive AttrElem where
  | attrWord (sym : Nat)
  | attrOther
deriving DecidableEq, Repr

/-- A top-level element of a function spec block.  A real BLOCK! is a
single array; the two views the analyses take of it (attribute words for
a leading block, a typeset bitmask via Make_Typeset for a parameter
type block) are carried side by side.  `strItem` covers the non-tag
ANY_BINSTR kinds, `otherItem` everything the spec scan rejects. -/
inductive SpecItem where
  | strItem
  | tagItem (t : FuncTag)
  | blockItem (attrs : List AttrElem) (bits : Nat)
  | wordItem (kind : WordKind) (sym : Nat)
  | otherItem
deriving DecidableEq, Repr

/-- A parameter typeset cell: symbol plus the EXT_TYPESET_* flags and the
64-bit datatype bitmask. -/
structure Typeset where
  sym : Nat
  quote : Bool
  evaluate : Bool
  refinement : Bool
  hidden : Bool
  bits : Nat
deriving DecidableEq, Repr

/-- A fresh typeset as Collect_Keylist builds it: symbol with no flags,
all datatypes allowed. -/
def initTypeset (s : Nat) : Typeset :=
  { sym := s, quote := false, evaluate := false, refinement := false
    hidden := false, bits := ALL_64 }

def tsSym (t : Typeset) : Nat := t.sym

def paramSyms (l : List Typeset) : List Nat := l.map tsSym

/-- The declared parameter symbols of a spec: the top-level ANY_WORD
elements, in order. -/
def wordSyms (items : List SpecItem) : List Nat :=
  items.filterMap (fun i =>
    match i with
    | SpecItem.wordItem _ s => some s
    | _ => none)

/-- Modelled from the spec (section 4.4 collect_keylist): the symbol
collection performed by Collect_Keylist_Managed(... BIND_ALL |
BIND_NO_DUP), whose implementation is not among the provided sources.
It gathers every top-level word-like element's symbol in order and
fails on duplicates (the BIND_NO_DUP policy, per the comment at
c-function.c:151). -/
def collectSyms : List SpecItem → List Nat → Except Nat (List Nat)
  | [], acc => Except.ok acc
  | item :: rest, acc =>
    match item with
    | SpecItem.wordItem _ s =>
      if s ∈ acc then Except.error RE_DUP_VARS else collectSyms rest (acc ++ [s])
    | _ => collectSyms rest acc

def Collect_Keylist (spec : List SpecItem) : Except Nat (List Nat) :=
  collectSyms spec []

/-- The parameter classification switch (c-function.c:251-284): set the
EXT_TYPESET_* flags according to the word kind; refinements also
restrict the bitmask to WORD!/NONE!; unhandled kinds hit the `default:
fail` arm. -/
def applyWordKind : WordKind → Typeset → Option Typeset
  | WordKind.wordK, t => some { t with evaluate := true }
  | WordKind.getWordK, t => some { t with quote := true }
  | WordKind.litWordK, t => some { t with quote := true, evaluate := true }
  | WordKind.refineK, t =>
    some { t with refinement := true
                  bits := FLAGIT64 REB_WORD + FLAGIT64 REB_NONE }
  | WordKind.setWordK, t => some { t with hidden := true }
  | WordKind.issueK, _ => none

/-- Leading attribute block scan (c-function.c:220-237): only the words
CATCH and THROW are tolerated; anything else fails. -/
def attrsLegal (attrs : List AttrElem) : Bool :=
  attrs.all (fun a =>
    match a with
    | AttrElem.attrWord s => s == SYM_CATCH || s == SYM_THROW
    | AttrElem.attrOther => false)

/-- The spec-walking loop of Make_Paramlist_Managed (c-function.c:167-315)
as a list zipper over the paramlist: `done` holds slots 0..idx with the
current typeset (`typeset` in C) at its head, `todo` the not yet reached
slots.  Strings (and tags) are skipped; a block either retypes the
current typeset (when `typeset != ARRAY_HEAD(paramlist)`, i.e. |done| >
1) or must be a legal leading attribute block; a word advances the
typeset pointer, applies the kind flags, and either captures the bubble
(symbol match with `opt_sym_last`) or — once the bubble is captured —
also copies itself one slot back (`*(typeset - 1) = *typeset`) to close
the hole.  At the end the loop asserts the typeset pointer is on the
final slot (todo empty) and, if a bubble symbol was requested, writes
the captured bubble into that final slot.  Debug-build asserts
(typeset/item symbol agreement, pointer in range, bubble present) are
the ASSERT_FAIL outcomes; none is reachable through
Make_Paramlist_Managed when the bubble symbol is declared. -/
def specLoop (symLast : Nat) :
    List SpecItem → List Typeset → List Typeset → Option Typeset →
    Except Nat (List Typeset)
  | [], done, todo, bubble =>
    if todo.isEmpty then
      if symLast ≠ 0 then
        match bubble, done with
        | some b, _ :: rest => Except.ok ((b :: rest).reverse)
        | _, _ => Except.error ASSERT_FAIL
      else Except.ok done.reverse
    else Except.error ASSERT_FAIL
  | item :: rest, done, todo, bubble =>
    match item with
    | SpecItem.strItem => specLoop symLast rest done todo bubble
    | SpecItem.tagItem _ => specLoop symLast rest done todo bubble
    | SpecItem.blockItem attrs bits =>
      if 1 < done.length then
        match done with
        | t :: dRest =>
          specLoop symLast rest ({ t with bits := bits } :: dRest) todo bubble
        | [] => Except.error ASSERT_FAIL
      else if attrsLegal attrs then specLoop symLast rest done todo bubble
      else Except.error RE_BAD_FUNC_DEF
    | SpecItem.otherItem => Except.error RE_BAD_FUNC_DEF
    | SpecItem.wordItem kind s =>
      match todo with
      | [] => Except.error ASSERT_FAIL
      | t :: todoRest =>
        if t.sym ≠ s then Except.error ASSERT_FAIL
        else
          match applyWordKind kind t with
          | none => Except.error RE_BAD_FUNC_DEF
          | some t2 =>
            if t2.sym = symLast then
              specLoop symLast rest (t2 :: done) todoRest (some t2)
            else
              match bubble with
              | some _ =>
                match done with
                | _ :: dRest =>
                  specLoop symLast rest (t2 :: t2 :: dRest) todoRest bubble
                | [] => Except.error ASSERT_FAIL
              | none => specLoop symLast rest (t2 :: done) todoRest none

/-- Make_Paramlist_Managed (c-function.c:131): collect the keylist
(erroring on duplicates), then walk the spec filling in flags and
typesets, bubbling `opt_sym_last` (if nonzero) to the final slot.
Slot 0 is the function archetype slot (trash until the caller fills
it); it is modelled as `initTypeset 0`. -/
def Make_Paramlist_Managed (spec : List SpecItem) (symLast : Nat) :
    Except Nat (List Typeset) :=
  match Collect_Keylist spec with
  | Except.error k => Except.error k
  | Except.ok keys =>
    specLoop symLast spec [initTypeset 0] (keys.map initTypeset) none

/-- Result of the has-return spec scan inside Make_Function. -/
structure ScanOut where
  /-- the spec contents after the in-place WORD! to SET-WORD! conversions -/
  spec : List SpecItem
  /-- the copy assigned to VAL_FUNC_SPEC at the moment a canceling
  element (a transparent tag or a RETURN word) was seen, if any -/
  snapshot : Option (List SpecItem)
  hasReturn : Bool
  flagOperator : Bool
deriving DecidableEq, Repr

/-- The spec scan of Make_Function when `has_return` starts TRUE
(c-function.c:561-711).  SET-WORD!s are skipped (tacit approval of the
definitional return).  A transparent tag copies the spec and cancels
has_return; the operator tag sets the flag; the locals tag starts
converting following WORD!s into SET-WORD!s until a refinement; any
other tag fails.  Any other ANY_WORD is (possibly converted and then)
checked against SYM_RETURN: a match copies the spec as mutated so far
and cancels has_return.  All remaining element kinds are ignored by
this scan. -/
def funcSpecScan :
    List SpecItem → List SpecItem → Bool → Bool → Option (List SpecItem) →
    Bool → Except Nat ScanOut
  | [], accRev, _, hasReturn, snapshot, flagOp =>
    Except.ok { spec := accRev.reverse, snapshot := snapshot
                hasReturn := hasReturn, flagOperator := flagOp }
  | item :: rest, accRev, convertLocal, hasReturn, snapshot, flagOp =>
    match item with
    | SpecItem.wordItem WordKind.setWordK _ =>
      funcSpecScan rest (item :: accRev) convertLocal hasReturn snapshot flagOp
    | SpecItem.tagItem FuncTag.tagTransparent =>
      funcSpecScan rest (item :: accRev) convertLocal false
        (some (accRev.reverse ++ item :: rest)) flagOp
    | SpecItem.tagItem FuncTag.tagOperator =>
      funcSpecScan rest (item :: accRev) convertLocal hasReturn snapshot true
    | SpecItem.tagItem FuncTag.tagLocal =>
      funcSpecScan rest (item :: accRev) true hasReturn snapshot flagOp
    | SpecItem.tagItem FuncTag.tagOther => Except.error RE_BAD_FUNC_DEF
    | SpecItem.wordItem kind s =>
      let conv : Except Nat (SpecItem × Bool) :=
        if convertLocal then
          if kind = WordKind.wordK then
            Except.ok (SpecItem.wordItem WordKind.setWordK s, true)
          else if kind = WordKind.refineK then Except.ok (item, false)
          else Except.error RE_BAD_FUNC_DEF
        else Except.ok (item, convertLocal)
      match conv with
      | Except.error k => Except.error k
      | Except.ok (item2, cl2) =>
        if s = SYM_RETURN then
          funcSpecScan rest (item2 :: accRev) cl2 false
            (some (accRev.reverse ++ item2 :: rest)) flagOp
        else funcSpecScan rest (item2 :: accRev) cl2 hasReturn snapshot flagOp
    | _ =>
      funcSpecScan rest (item :: accRev) convertLocal hasReturn snapshot flagOp

/-- The `return:` SET-WORD! appended from ROOT_RETURN_SET_WORD. -/
def returnSetWord : SpecItem := SpecItem.wordItem WordKind.setWordK SYM_RETURN

/-- The spec selection of Make_Function (c-function.c:535-733): without
has_return the caller's spec is deep-copied as-is; with has_return the
scan above runs, and if nothing canceled it the spec becomes a copy with
`return:` appended (or the shared `[return:]` block when the spec was
empty), else the copy snapshotted at cancel time is used.  Returns the
spec used, the final has_return, and the operator flag. -/
def Make_Function_SpecUsed (spec : List SpecItem) (hasReturnIn : Bool) :
    Except Nat (List SpecItem × Bool × Bool) :=
  if ¬ hasReturnIn then Except.ok (spec, false, false)
  else
    match funcSpecScan spec [] false true none false with
    | Except.error k => Except.error k
    | Except.ok s =>
      if s.hasReturn then
        if spec.length = 0 then Except.ok ([returnSetWord], true, s.flagOperator)
        else Except.ok (s.spec ++ [returnSetWord], true, s.flagOperator)
      else Except.ok (s.snapshot.getD s.spec, false, s.flagOperator)

structure MadeFunction where
  spec : List SpecItem
  body : List SpecItem
  paramlist : List Typeset
  hasReturnFlag : Bool
  flagOperator : Bool
deriving DecidableEq, Repr

/-- Make_Function (c-function.c:526): select the spec (possibly
synthesizing or suppressing the definitional return), build the
paramlist with SYM_RETURN as the bubble symbol when has_return
survived, copy the body, and set EXT_FUNC_HAS_RETURN accordingly.  A
bad spec fails here rather than at call time. -/
def Make_Function (spec body : List SpecItem) (hasReturnIn : Bool) :
    Except Nat MadeFunction :=
  match Make_Function_SpecUsed spec hasReturnIn with
  | Except.error k => Except.error k
  | Except.ok (specUsed, hasReturn, flagOp) =>
    match Make_Paramlist_Managed specUsed
        (if hasReturn then SYM_RETURN else SYM_0) with
    | Except.error k => Except.error k
    | Except.ok pl =>
      Except.ok { spec := specUsed, body := body, paramlist := pl
                  hasReturnFlag := hasReturn, flagOperator := flagOp }

/-! ## Helper lemmas -/

theorem applyWordKind_sym (k : WordKind) (t t2 : Typeset)
    (h : applyWordKind k t = some t2) : t2.sym = t.sym := by
  cases k <;> simp [applyWordKind] at h <;> simp [← h]

theorem isWordV_exists (v : RVal) (h : isWordV v = true) :
    ∃ s, v = RVal.wordV s := by
  cases v <;> simp [isWordV] at h
  exact ⟨_, rfl⟩

theorem wordSymOf_pos_word (v : RVal) (s : Nat) (h : wordSymOf v = s)
    (hp : 0 < s) : v = RVal.wordV s := by
  cases v
  case wordV s2 => simp only [wordSymOf] at h; rw [h]
  all_goals (exfalso; simp only [wordSymOf] at h; omega)

/-! ## Claim theorems -/

/-- C8: Exit_Status_From_Value maps an integer through VAL_INT32
truncation (a value congruent mod 2^32 and within the 32-bit signed
range), unset and none to 0, an error to its numeric code, and every
other value kind to 1. -/
theorem exit_status_from_value_mapping :
    ∀ (n num : Int) (s bid : Nat) (str : String) (b : Bool),
    Exit_Status_From_Value (RVal.integerV n) = int32 n ∧
    -(2 ^ 31) ≤ int32 n ∧ int32 n < 2 ^ 31 ∧ (2 ^ 32 : Int) ∣ (n - int32 n) ∧
    Exit_Status_From_Value RVal.unsetV = 0 ∧
    Exit_Status_From_Value RVal.noneV = 0 ∧
    Exit_Status_From_Value (RVal.errorV num) = num ∧
    Exit_Status_From_Value (RVal.logicV b) = 1 ∧
    Exit_Status_From_Value (RVal.wordV s) = 1 ∧
    Exit_Status_From_Value (RVal.stringV str) = 1 ∧
    Exit_Status_From_Value (RVal.blockV bid) = 1 ∧
    Exit_Status_From_Value RVal.endV = 1 ∧
    Exit_Status_From_Value RVal.otherV = 1 := by
  intro n num s bid str b
  refine ⟨rfl, ?_, ?_, ?_, rfl, rfl, rfl, rfl, rfl, rfl, rfl, rfl, rfl⟩
  · unfold int32; omega
  · unfold int32; omega
  · unfold int32; omega

/-- C10: for an OBJECT! value, the LENGTH? action answers the frame tail
minus one (never counting the SELF slot at index 0) and the TAIL? action
answers true exactly when that count is zero, i.e. when the frame tail
is at most 1. -/
theorem object_length_and_tail (v : ObjVal)
    (ht : v.type = REB_OBJECT) (hlen : 1 ≤ v.frame.vals.length) :
    REBTYPE_Object A_LENGTHQ v
      = Except.ok (RVal.integerV ((v.frame.vals.length : Int) - 1)) ∧
    REBTYPE_Object A_TAILQ v
      = Except.ok (RVal.logicV (decide (v.frame.vals.length ≤ 1))) ∧
    (((v.frame.vals.length : Int) - 1 = 0) ↔ v.frame.vals.length ≤ 1) := by
  refine ⟨?_, ?_, by omega⟩
  · simp [REBTYPE_Object, A_LENGTHQ, ht]
  · simp [REBTYPE_Object, A_LENGTHQ, A_TAILQ, ht]

/-- Witness for C10 at a concrete two-field object (tail 3, two real
fields): LENGTH? is 2 and TAIL? is false. -/
theorem object_length_and_tail_witness :
    REBTYPE_Object A_LENGTHQ
        ⟨REB_OBJECT, ⟨0, [RVal.noneV, RVal.integerV 9, RVal.wordV 4], [RVal.noneV, RVal.wordV 5, RVal.wordV 6]⟩⟩
      = Except.ok (RVal.integerV 2) ∧
    REBTYPE_Object A_TAILQ
        ⟨REB_OBJECT, ⟨0, [RVal.noneV, RVal.integerV 9, RVal.wordV 4], [RVal.noneV, RVal.wordV 5, RVal.wordV 6]⟩⟩
      = Except.ok (RVal.logicV false) :=
  ⟨(object_length_and_tail _ rfl (by decide)).1,
   (object_length_and_tail _ rfl (by decide)).2.1⟩

/-- C9 (amended): object comparison never inspects slot 0.  Values with
equal types and the very same frame compare equal; values with equal
types but distinct frame pointers compare equal iff the varlist tails
and word-series tails agree and every word/value pair at indices 1
through tail-1 compares equal under Cmp_Value; the identity mode
(CT_Object mode 3) compares the value types and the frame pointers
only; every other non-negative mode is content equality. -/
theorem object_equality_ignores_self (cmp : RVal → RVal → Int) (a b : ObjVal) :
    (a.frame = b.frame → a.type = b.type → Equal_Object cmp a b = true) ∧
    (a.type = b.type → a.frame.id ≠ b.frame.id →
      (Equal_Object cmp a b = true ↔
        (a.frame.vals.length = b.frame.vals.length ∧
         a.frame.words.length = b.frame.words.length ∧
         ∀ n ∈ List.range' 1 (a.frame.vals.length - 1),
           cmp (a.frame.words.getD n RVal.endV) (b.frame.words.getD n RVal.endV) = 0 ∧
           cmp (a.frame.vals.getD n RVal.endV) (b.frame.vals.getD n RVal.endV) = 0))) ∧
    (CT_Object cmp a b 3 = 1 ↔ (a.type = b.type ∧ a.frame.id = b.frame.id)) ∧
    (∀ mode : Int, 0 ≤ mode → mode ≠ 3 →
      CT_Object cmp a b mode = if Equal_Object cmp a b then 1 else 0) := by
  refine ⟨?_, ?_, ?_, ?_⟩
  · intro hf ht
    simp [Equal_Object, ht, hf]
  · intro ht hid
    simp only [Equal_Object, ht, ne_eq, not_true_eq_false, if_false,
      if_neg hid, ite_not]
    by_cases h1 : a.frame.vals.length = b.frame.vals.length
    · by_cases h2 : a.frame.words.length = b.frame.words.length
      · simp [h1, h2, List.all_eq_true, Bool.and_eq_true, beq_iff_eq]
      · simp [h1, h2]
    · simp [h1]
  · constructor
    · intro h
      simp only [CT_Object] at h
      rw [if_neg (by norm_num : ¬ ((3 : Int) < 0))] at h
      simp only [if_pos trivial] at h
      by_cases hs : Same_Object a b = true
      · simp only [Same_Object, Bool.and_eq_true, beq_iff_eq] at hs
        exact ⟨hs.1.symm, hs.2⟩
      · rw [if_neg hs] at h
        norm_num at h
    · rintro ⟨h1, h2⟩
      simp only [CT_Object]
      rw [if_neg (by norm_num : ¬ ((3 : Int) < 0))]
      simp only [if_pos trivial]
      rw [if_pos (by simp [Same_Object, h1, h2] : Same_Object a b = true)]
  · intro mode h0 h3
    simp only [CT_Object]
    rw [if_neg (by omega), if_neg h3]

/-- Witness for C9's amended theorem: two objects with distinct frame
pointers but equal contents compare equal under a concrete
comparator. -/
theorem object_equality_ignores_self_witness :
    Equal_Object (fun x y => if x = y then 0 else 1)
      ⟨REB_OBJECT, ⟨1, [RVal.noneV, RVal.integerV 4], [RVal.noneV, RVal.wordV 5]⟩⟩
      ⟨REB_OBJECT, ⟨2, [RVal.unsetV, RVal.integerV 4], [RVal.otherV, RVal.wordV 5]⟩⟩ = true :=
  ((object_equality_ignores_self (fun x y => if x = y then 0 else 1)
      ⟨REB_OBJECT, ⟨1, [RVal.noneV, RVal.integerV 4], [RVal.noneV, RVal.wordV 5]⟩⟩
      ⟨REB_OBJECT, ⟨2, [RVal.unsetV, RVal.integerV 4], [RVal.otherV, RVal.wordV 5]⟩⟩).2.1
    rfl (by decide)).mpr (by decide)

/-- C9 counterexample to the claim as stated: the identity mode does not
compare "frame pointers only" — it also compares the value types.  An
OBJECT! and an ERROR! sharing one frame (same pointer, even equal
contents) compare unequal in mode 3. -/
theorem ct_object_mode3_checks_type :
    CT_Object (fun _ _ => 0)
      ⟨REB_OBJECT, ⟨5, [RVal.noneV], [RVal.noneV]⟩⟩
      ⟨REB_ERROR, ⟨5, [RVal.noneV], [RVal.noneV]⟩⟩ 3 = 0 ∧
    (⟨REB_OBJECT, ⟨5, [RVal.noneV], [RVal.noneV]⟩⟩ : ObjVal).frame
      = (⟨REB_ERROR, ⟨5, [RVal.noneV], [RVal.noneV]⟩⟩ : ObjVal).frame := by
  exact ⟨by decide, rfl⟩

/-- C5: when the block argument's evaluation produces a thrown signal,
Make_Error_Object_Throws returns TRUE with the thrown value in the
output slot, propagating it instead of converting it to an error; in
every case in which the routine returns without a thrown signal, it
returns FALSE with a completed error object. -/
theorem make_error_object_throw_propagation :
    ∀ (cats : List ErrCategory) (arg : MakeErrArg) (r : MakeErrResult),
    Make_Error_Object_Throws cats arg = Except.ok r →
    ((∀ v e, arg = MakeErrArg.fromBlock (some v) e → r = MakeErrResult.threw v) ∧
     ((∀ v e, arg ≠ MakeErrArg.fromBlock (some v) e) → ∃ e2, r = MakeErrResult.made e2)) := by
  intro cats arg r h
  cases arg with
  | fromError e =>
    refine ⟨(by intro v e2 heq; cases heq), ?_⟩
    intro _
    cases hv : validateError cats e with
    | error k => simp [Make_Error_Object_Throws, hv, Except.map] at h
    | ok e2 =>
      simp [Make_Error_Object_Throws, hv, Except.map] at h
      exact ⟨e2, h.symm⟩
  | fromObject e =>
    refine ⟨(by intro v e2 heq; cases heq), ?_⟩
    intro _
    cases hv : validateError cats e with
    | error k => simp [Make_Error_Object_Throws, hv, Except.map] at h
    | ok e2 =>
      simp [Make_Error_Object_Throws, hv, Except.map] at h
      exact ⟨e2, h.symm⟩
  | fromBlock thrown e =>
    cases thrown with
    | some v =>
      simp only [Make_Error_Object_Throws, Except.ok.injEq] at h
      refine ⟨?_, ?_⟩
      · intro v2 e2 heq
        injection heq with h1 h2
        injection h1 with h1
        rw [← h, ← h1]
      · intro hne
        exact absurd rfl (hne v e)
    | none =>
      refine ⟨(by intro v e2 heq; cases heq), ?_⟩
      intro _
      cases hv : validateError cats e with
      | error k => simp [Make_Error_Object_Throws, hv, Except.map] at h
      | ok e2 =>
        simp [Make_Error_Object_Throws, hv, Except.map] at h
        exact ⟨e2, h.symm⟩
  | fromString s =>
    refine ⟨(by intro v e2 heq; cases heq), ?_⟩
    intro _
    cases hv : validateError cats { rootErrorFields with message := RVal.stringV s } with
    | error k => simp [Make_Error_Object_Throws, hv, Except.map] at h
    | ok e2 =>
      simp [Make_Error_Object_Throws, hv, Except.map] at h
      exact ⟨e2, h.symm⟩
  | otherArg => simp [Make_Error_Object_Throws] at h

/-- Witness for C5: a concrete thrown block propagates its thrown word,
and a concrete string construction yields a made error. -/
theorem make_error_object_throw_propagation_witness :
    MakeErrResult.threw (RVal.wordV 3) = MakeErrResult.threw (RVal.wordV 3) ∧
    ∃ e2, MakeErrResult.made
        { code := RVal.integerV RE_USER, type := RVal.wordV SYM_USER,
          id := RVal.wordV SYM_MESSAGE, message := RVal.stringV "x" }
      = MakeErrResult.made e2 :=
  ⟨(make_error_object_throw_propagation []
      (MakeErrArg.fromBlock (some (RVal.wordV 3))
        { code := RVal.noneV, type := RVal.noneV, id := RVal.noneV, message := RVal.noneV })
      (MakeErrResult.threw (RVal.wordV 3)) rfl).1 (RVal.wordV 3) _ rfl,
   (make_error_object_throw_propagation [] (MakeErrArg.fromString "x")
      (MakeErrResult.made
        { code := RVal.integerV RE_USER, type := RVal.wordV SYM_USER,
          id := RVal.wordV SYM_MESSAGE, message := RVal.stringV "x" })
      rfl).2 (by intro v e heq; cases heq)⟩

/-- C7: constructing an error from a string yields an error whose
message is that string, whose type and id are the default user markers
('user and 'message from the root template), and whose code is RE_USER
(1000) — for any catalog that has no category named 'user (the catalog
reserves categories for codes below the user threshold). -/
theorem make_error_from_string_defaults :
    ∀ (cats : List ErrCategory) (s : String),
    cats.all (fun c => decide (c.sym ≠ SYM_USER)) = true →
    Make_Error_Object_Throws cats (MakeErrArg.fromString s) =
      Except.ok (MakeErrResult.made
        { code := RVal.integerV RE_USER, type := RVal.wordV SYM_USER,
          id := RVal.wordV SYM_MESSAGE, message := RVal.stringV s }) := by
  intro cats s hall
  have hfind : cats.find? (fun c => c.sym == SYM_USER) = none := by
    rw [List.find?_eq_none]
    intro c hc
    have := List.all_eq_true.mp hall c hc
    simpa using this
  simp [Make_Error_Object_Throws, validateError, rootErrorFields, validateTypeId,
    hfind, Except.map]

/-- Witness for C7 at the string "oops" against a concrete catalog. -/
theorem make_error_from_string_defaults_witness :
    Make_Error_Object_Throws
        [⟨21, RVal.integerV 0, RVal.stringV "t", [(31, RVal.stringV "zero"), (32, RVal.stringV "one")]⟩]
        (MakeErrArg.fromString "oops") =
      Except.ok (MakeErrResult.made
        { code := RVal.integerV RE_USER, type := RVal.wordV SYM_USER,
          id := RVal.wordV SYM_MESSAGE, message := RVal.stringV "oops" }) :=
  make_error_from_string_defaults
    [⟨21, RVal.integerV 0, RVal.stringV "t", [(31, RVal.stringV "zero"), (32, RVal.stringV "one")]⟩]
    "oops" (by decide)


/-- A successful Find_Error_For_Code writes a word into each output: the
id from the message slot's key (or the END cell's junk symbol at the
boundary) and the type from the category's key symbol. -/
theorem find_error_success_shape (cats : List ErrCategory) (i t : RVal) (c : Nat)
    (m iw tw : RVal) (h : Find_Error_For_Code cats i t c = (some m, iw, tw)) :
    ∃ idSym category, cats.get? (c / 100) = some category ∧
      category ∈ cats ∧ iw = RVal.wordV idSym ∧ tw = RVal.wordV category.sym := by
  unfold Find_Error_For_Code at h
  dsimp only [] at h
  split at h
  · simp at h
  · split at h
    · simp at h
    · next category hg =>
      split at h
      · simp at h
      · split at h
        · simp at h
        · split at h
          · simp at h
          · simp only [Prod.mk.injEq, Option.some.injEq] at h
            exact ⟨_, category, hg, List.get?_mem hg, h.2.1.symm, h.2.2.symm⟩

/-- Error returns of the below-user validation always carry the
"invalid error" diagnosis. -/
theorem validateBelowUser_err (cats : List ErrCategory) (e : ErrorObj) (n : Int)
    (k : Nat) (h : validateBelowUser cats e n = Except.error k) :
    k = RE_INVALID_ERROR := by
  unfold validateBelowUser at h
  split at h
  · exact (Except.error.inj h).symm
  · split at h
    · exact (Except.error.inj h).symm
    · dsimp only [] at h
      split at h
      · exact (Except.error.inj h).symm
      · split at h
        · exact (Except.error.inj h).symm
        · exact absurd h (by simp)

/-- Successful below-user validation forces: no supplied message, a
catalog template for the code, a supplied id that is absent or a word
bearing the catalog id symbol, a supplied type that is absent or
bearing the catalog type symbol, and normalization of all three fields
to the catalog data. -/
theorem validateBelowUser_ok (cats : List ErrCategory) (e : ErrorObj) (n : Int)
    (e2 : ErrorObj) (h : validateBelowUser cats e n = Except.ok e2) :
    ∃ msg idw tyw,
      Find_Error_For_Code cats RVal.noneV RVal.noneV (Int.toNat (int32 n % 2 ^ 32))
        = (some msg, idw, tyw) ∧
      e.message = RVal.noneV ∧
      (e.id = RVal.noneV ∨ (isWordV e.id = true ∧ wordSymOf e.id = wordSymOf idw)) ∧
      (e.type = RVal.noneV ∨ wordSymOf e.type = wordSymOf tyw) ∧
      e2 = { e with message := msg, id := idw, type := tyw } := by
  unfold validateBelowUser at h
  split at h
  · exact absurd h (by simp)
  · next hmsg =>
    rw [not_not] at hmsg
    split at h
    · exact absurd h (by simp)
    · next msg idw tyw hF =>
      dsimp only [] at h
      split at h
      · exact absurd h (by simp)
      · next hid =>
        split at h
        · exact absurd h (by simp)
        · next hty =>
          push_neg at hid hty
          refine ⟨msg, idw, tyw, hF, hmsg, ?_, ?_, (Except.ok.inj h).symm⟩
          · by_cases hcase : e.id = RVal.noneV
            · exact Or.inl hcase
            · exact Or.inr (hid hcase)
          · by_cases hcase : e.type = RVal.noneV
            · exact Or.inl hcase
            · exact Or.inr ((hty hcase).2)

/-- C2: for an error-object construction whose code field is an integer
below RE_USER, validation succeeds only if the supplied message is
absent, the code has a catalog template, and any supplied id or type
carries exactly the catalog's id/type word for that code — all three
fields being normalized to the catalog data — and every rejection on
this path is the "invalid error" diagnosis, so a system error identity
cannot be forged with differing fields. -/
theorem system_error_identity_not_forgeable :
    ∀ (cats : List ErrCategory) (e : ErrorObj) (n : Int),
    catalogSymsPositive cats = true →
    e.code = RVal.integerV n →
    int32 n < RE_USER →
    (∀ e2, validateError cats e = Except.ok e2 →
      ∃ msg idw tyw,
        Find_Error_For_Code cats RVal.noneV RVal.noneV (Int.toNat (int32 n % 2 ^ 32))
          = (some msg, idw, tyw) ∧
        e.message = RVal.noneV ∧
        (e.id = RVal.noneV ∨ e.id = idw) ∧
        (e.type = RVal.noneV ∨ e.type = tyw) ∧
        e2 = { e with message := msg, id := idw, type := tyw }) ∧
    (∀ k, validateError cats e = Except.error k → k = RE_INVALID_ERROR) := by
  intro cats e n hpos hcode hlt
  have hv : validateError cats e = validateBelowUser cats e n := by
    unfold validateError
    rw [hcode]
    simp [hlt]
  constructor
  · intro e2 hok
    rw [hv] at hok
    obtain ⟨msg, idw, tyw, hF, hmsg, hid, hty, he2⟩ :=
      validateBelowUser_ok cats e n e2 hok
    obtain ⟨idSym, category, hget, hmem, hiw, htw⟩ :=
      find_error_success_shape cats RVal.noneV RVal.noneV _ msg idw tyw hF
    have hcatpos : 0 < category.sym := by
      have := List.all_eq_true.mp hpos category hmem
      simpa using this
    refine ⟨msg, idw, tyw, hF, hmsg, ?_, ?_, he2⟩
    · rcases hid with hid | ⟨hw, hsym⟩
      · exact Or.inl hid
      · right
        obtain ⟨s, hs⟩ := isWordV_exists e.id hw
        rw [hs, hiw] at hsym ⊢
        simp only [wordSymOf] at hsym
        rw [hsym]
    · rcases hty with hty | hsym
      · exact Or.inl hty
      · right
        rw [htw] at hsym ⊢
        simp only [wordSymOf] at hsym
        rw [wordSymOf_pos_word e.type category.sym hsym hcatpos]
  · intro k hk
    rw [hv] at hk
    exact validateBelowUser_err cats e n k hk

/-- Witness for C2 at a concrete catalog and a construction supplying
matching id and type words for code 1: validation succeeds and the
theorem's consistency conclusions hold. -/
theorem system_error_identity_not_forgeable_witness :
    ∃ msg idw tyw,
      Find_Error_For_Code
          [⟨21, RVal.integerV 0, RVal.stringV "t", [(31, RVal.stringV "zero"), (32, RVal.stringV "one")]⟩]
          RVal.noneV RVal.noneV (Int.toNat (int32 1 % 2 ^ 32))
        = (some msg, idw, tyw) ∧
      (RVal.noneV = RVal.noneV) ∧
      (RVal.wordV 32 = RVal.noneV ∨ RVal.wordV 32 = idw) ∧
      (RVal.wordV 21 = RVal.noneV ∨ RVal.wordV 21 = tyw) ∧
      ({ code := RVal.integerV 1, type := RVal.wordV 21, id := RVal.wordV 32,
         message := RVal.stringV "one" } : ErrorObj)
        = { code := RVal.integerV 1, type := tyw, id := idw, message := msg } := by
  exact (system_error_identity_not_forgeable
    [⟨21, RVal.integerV 0, RVal.stringV "t", [(31, RVal.stringV "zero"), (32, RVal.stringV "one")]⟩]
    { code := RVal.integerV 1, type := RVal.wordV 21, id := RVal.wordV 32, message := RVal.noneV }
    1 (by decide) rfl (by decide)).1
    { code := RVal.integerV 1, type := RVal.wordV 21, id := RVal.wordV 32,
      message := RVal.stringV "one" } (by rfl)


/-- C6 failing input: the bound check `n + 3 > SERIES_TAIL(category)`
admits offset == message count.  Against a catalog whose first category
holds exactly one message (so code 1 is unassigned), code 1 slips past
the check: the "message" returned is the frame's END marker (non-NULL,
failing the debug assert that a message is a block or string) and both
outputs are overwritten with junk/partial data — whereas code 2, one
further out, correctly returns not-found with both outputs untouched. -/
theorem find_error_unassigned_boundary :
    Find_Error_For_Code
        [⟨21, RVal.integerV 0, RVal.stringV "t", [(31, RVal.stringV "m")]⟩]
        (RVal.wordV 7) (RVal.wordV 8) 1
      = (some RVal.endV, RVal.wordV 0, RVal.wordV 21) ∧
    Find_Error_For_Code
        [⟨21, RVal.integerV 0, RVal.stringV "t", [(31, RVal.stringV "m")]⟩]
        (RVal.wordV 7) (RVal.wordV 8) 2
      = (none, RVal.wordV 7, RVal.wordV 8) :=
  ⟨rfl, rfl⟩

/-- C4 failing input: the spec `[return: [integer!]]` passed to the
has-definitional-return builder.  The scan skips the user's `return:`
SET-WORD! without canceling `has_return`, so the builder does NOT
suppress synthesis — it appends a second `return:` to the spec — and
Make_Function then fails when keylist collection rejects the duplicate
'return symbol. -/
theorem make_function_return_spec_eval :
    Make_Function_SpecUsed
        [SpecItem.wordItem WordKind.setWordK SYM_RETURN,
         SpecItem.blockItem [] (FLAGIT64 5)] true
      = Except.ok
          ([SpecItem.wordItem WordKind.setWordK SYM_RETURN,
            SpecItem.blockItem [] (FLAGIT64 5), returnSetWord], true, false) ∧
    Make_Function
        [SpecItem.wordItem WordKind.setWordK SYM_RETURN,
         SpecItem.blockItem [] (FLAGIT64 5)] [] true
      = Except.error RE_DUP_VARS :=
  ⟨rfl, rfl⟩


/-- Effect shape of any sequence of in-trap operations: frames are only
prepended to the call chain, manual series only appended, and the saved
chain, GC-disable flag and freed logs are untouched. -/
theorem applyTrapOps_shape :
    ∀ (ops : List TrapOp) (m : Machine),
    ∃ nf nm,
      (applyTrapOps m ops).dsf = nf ++ m.dsf ∧
      (applyTrapOps m ops).manuals = m.manuals ++ nm ∧
      (applyTrapOps m ops).saved = m.saved ∧
      (applyTrapOps m ops).freed_frames = m.freed_frames ∧
      (applyTrapOps m ops).freed_series = m.freed_series := by
  intro ops
  induction ops with
  | nil => exact fun m => ⟨[], [], by simp [applyTrapOps], by simp [applyTrapOps],
      rfl, rfl, rfl⟩
  | cons op rest ih =>
    intro m
    have hfold : applyTrapOps m (op :: rest) = applyTrapOps (applyTrapOp m op) rest := rfl
    obtain ⟨nf, nm, h1, h2, h3, h4, h5⟩ := ih (applyTrapOp m op)
    cases op with
    | allocManual =>
      refine ⟨nf, m.next_id :: nm, ?_, ?_, ?_, ?_, ?_⟩ <;>
        (rw [hfold]; simp only [h1, h2, h3, h4, h5]; try simp [applyTrapOp])
    | pushFrame =>
      refine ⟨nf ++ [m.next_id], nm, ?_, ?_, ?_, ?_, ?_⟩ <;>
        (rw [hfold]; simp only [h1, h2, h3, h4, h5]; try simp [applyTrapOp])
    | pushGuardSeries =>
      refine ⟨nf, nm, ?_, ?_, ?_, ?_, ?_⟩ <;>
        (rw [hfold]; simp only [h1, h2, h3, h4, h5]; try simp [applyTrapOp])
    | pushGuardValue =>
      refine ⟨nf, nm, ?_, ?_, ?_, ?_, ?_⟩ <;>
        (rw [hfold]; simp only [h1, h2, h3, h4, h5]; try simp [applyTrapOp])
    | pushData =>
      refine ⟨nf, nm, ?_, ?_, ?_, ?_, ?_⟩ <;>
        (rw [hfold]; simp only [h1, h2, h3, h4, h5]; try simp [applyTrapOp])

/-- Walking the call chain down to a suffix frees exactly the frames in
front of that suffix, in order. -/
theorem freeFramesUntil_suffix :
    ∀ (nf base : List Nat), freeFramesUntil (nf ++ base) base = (base, nf) := by
  intro nf
  induction nf with
  | nil => intro base; unfold freeFramesUntil; simp
  | cons c rest ih =>
    intro base
    unfold freeFramesUntil
    split
    · next heq =>
      exfalso
      have hl := congrArg List.length heq
      simp only [List.length_cons, List.length_append] at hl
      omega
    · simp [ih base]

/-- Popping the (reversed) manuals list down to a target length frees
exactly the series beyond it, most recent first. -/
theorem freeManualsRev_spec :
    ∀ (newRev baseRev : List Nat),
    freeManualsRev (newRev ++ baseRev) baseRev.length = (baseRev, newRev) := by
  intro newRev
  induction newRev with
  | nil => intro baseRev; unfold freeManualsRev; simp
  | cons s rest ih =>
    intro baseRev
    unfold freeManualsRev
    split
    · next hle =>
      exfalso
      simp only [List.length_cons, List.length_append] at hle
      omega
    · simp [ih baseRev]

theorem freeManualsTo_spec (base nm : List Nat) :
    freeManualsTo (base ++ nm) base.length = (base, nm.reverse) := by
  unfold freeManualsTo
  rw [List.reverse_append]
  have h := freeManualsRev_spec nm.reverse base.reverse
  rw [List.length_reverse] at h
  rw [h]
  simp

/-- C1: trap rollback completeness.  For every machine state and every
sequence of manual-series allocations, call-frame pushes, guard-stack
pushes and data-stack pushes performed strictly between Push_Trap_Helper
and a Fail_Core, handling the longjmp with Trapped_Helper_Halted
restores the data-stack pointer, call-frame top, both guard-stack
tails, the GC-disable flag, the manual-series list (hence its tail) and
the active saved-state chain exactly to their push-time values, and the
ghost logs show every intervening call frame and every intervening
manual series was freed. -/
theorem trap_rollback_completeness :
    ∀ (m : Machine) (ops : List TrapOp) (errnum : Int),
    (trapRoundTrip m ops errnum).dsp = m.dsp ∧
    (trapRoundTrip m ops errnum).dsf = m.dsf ∧
    (trapRoundTrip m ops errnum).series_guard_tail = m.series_guard_tail ∧
    (trapRoundTrip m ops errnum).value_guard_tail = m.value_guard_tail ∧
    (trapRoundTrip m ops errnum).gc_disable = m.gc_disable ∧
    (trapRoundTrip m ops errnum).manuals = m.manuals ∧
    (trapRoundTrip m ops errnum).saved = m.saved ∧
    ∃ nf nm,
      (applyTrapOps (Push_Trap_Helper m) ops).dsf = nf ++ m.dsf ∧
      (applyTrapOps (Push_Trap_Helper m) ops).manuals = m.manuals ++ nm ∧
      (trapRoundTrip m ops errnum).freed_frames = nf ++ m.freed_frames ∧
      (trapRoundTrip m ops errnum).freed_series = nm.reverse ++ m.freed_series := by
  intro m ops errnum
  obtain ⟨nf, nm, hdsf, hman, hsaved, hff, hfs⟩ :=
    applyTrapOps_shape ops (Push_Trap_Helper m)
  have hsaved2 : (applyTrapOps (Push_Trap_Helper m) ops).saved =
      { dsp := m.dsp, dsf := m.dsf
        series_guard_tail := m.series_guard_tail
        value_guard_tail := m.value_guard_tail
        gc_disable := m.gc_disable
        manuals_tail := m.manuals.length
        error_frame := none } :: m.saved := by
    rw [hsaved]; rfl
  have hdsf2 : (applyTrapOps (Push_Trap_Helper m) ops).dsf = nf ++ m.dsf := hdsf
  have hman2 : (applyTrapOps (Push_Trap_Helper m) ops).manuals = m.manuals ++ nm := hman
  unfold trapRoundTrip
  unfold Fail_Core
  rw [hsaved2]
  unfold Trapped_Helper_Halted
  dsimp only []
  rw [hdsf2, hman2, freeFramesUntil_suffix nf m.dsf,
    freeManualsTo_spec m.manuals nm]
  dsimp only []
  rw [hff, hfs]
  exact ⟨rfl, rfl, rfl, rfl, rfl, rfl, rfl, nf, nm, rfl, rfl, rfl, rfl⟩


/-! Unfolding equations for specLoop, one per spec-item shape. -/

theorem specLoop_nil_eq (symLast : Nat) (done todo : List Typeset)
    (bubble : Option Typeset) :
    specLoop symLast [] done todo bubble =
      if todo.isEmpty then
        if symLast ≠ 0 then
          match bubble, done with
          | some b, _ :: rest => Except.ok ((b :: rest).reverse)
          | _, _ => Except.error ASSERT_FAIL
        else Except.ok done.reverse
      else Except.error ASSERT_FAIL := rfl

theorem specLoop_str_eq (symLast : Nat) (rest : List SpecItem)
    (done todo : List Typeset) (bubble : Option Typeset) :
    specLoop symLast (SpecItem.strItem :: rest) done todo bubble =
      specLoop symLast rest done todo bubble := rfl

theorem specLoop_tag_eq (symLast : Nat) (rest : List SpecItem) (t : FuncTag)
    (done todo : List Typeset) (bubble : Option Typeset) :
    specLoop symLast (SpecItem.tagItem t :: rest) done todo bubble =
      specLoop symLast rest done todo bubble := rfl

theorem specLoop_other_eq (symLast : Nat) (rest : List SpecItem)
    (done todo : List Typeset) (bubble : Option Typeset) :
    specLoop symLast (SpecItem.otherItem :: rest) done todo bubble =
      Except.error RE_BAD_FUNC_DEF := rfl

theorem specLoop_block_eq (symLast : Nat) (rest : List SpecItem)
    (attrs : List AttrElem) (bits : Nat) (done todo : List Typeset)
    (bubble : Option Typeset) :
    specLoop symLast (SpecItem.blockItem attrs bits :: rest) done todo bubble =
      if 1 < done.length then
        match done with
        | t :: dRest =>
          specLoop symLast rest ({ t with bits := bits } :: dRest) todo bubble
        | [] => Except.error ASSERT_FAIL
      else if attrsLegal attrs then specLoop symLast rest done todo bubble
      else Except.error RE_BAD_FUNC_DEF := rfl

theorem specLoop_word_eq (symLast : Nat) (rest : List SpecItem)
    (kind : WordKind) (s : Nat) (done todo : List Typeset)
    (bubble : Option Typeset) :
    specLoop symLast (SpecItem.wordItem kind s :: rest) done todo bubble =
      match todo with
      | [] => Except.error ASSERT_FAIL
      | t :: todoRest =>
        if t.sym ≠ s then Except.error ASSERT_FAIL
        else
          match applyWordKind kind t with
          | none => Except.error RE_BAD_FUNC_DEF
          | some t2 =>
            if t2.sym = symLast then
              specLoop symLast rest (t2 :: done) todoRest (some t2)
            else
              match bubble with
              | some _ =>
                match done with
                | _ :: dRest =>
                  specLoop symLast rest (t2 :: t2 :: dRest) todoRest bubble
                | [] => Except.error ASSERT_FAIL
              | none => specLoop symLast rest (t2 :: done) todoRest none := rfl

theorem paramSyms_cons (t : Typeset) (l : List Typeset) :
    paramSyms (t :: l) = t.sym :: paramSyms l := rfl

/-- Once the bubble has been captured, a successful run of the remaining
spec leaves the already-filled slots behind it shifted over the hole,
appends the remaining parameters in order, and ends with the bubble in
the final slot. -/
theorem specLoop_bubbled :
    ∀ (items : List SpecItem) (done todo : List Typeset) (b : Typeset)
      (symLast : Nat) (res : List Typeset),
    specLoop symLast items done todo (some b) = Except.ok res →
    symLast ∉ wordSyms items → symLast ≠ 0 → done ≠ [] →
    paramSyms res = (paramSyms done.tail).reverse ++ wordSyms items ++ [b.sym] := by
  intro items
  induction items with
  | nil =>
    intro done todo b symLast res h hmem hnz hne
    cases done with
    | nil => exact absurd rfl hne
    | cons d rest =>
      rw [specLoop_nil_eq] at h
      by_cases hempty : todo.isEmpty = true
      · rw [if_pos hempty, if_pos hnz] at h
        dsimp only [] at h
        rw [← Except.ok.inj h]
        simp [paramSyms, tsSym, wordSyms]
      · rw [if_neg hempty] at h
        exact absurd h (by simp)
  | cons item rest ih =>
    intro done todo b symLast res h hmem hnz hne
    cases item with
    | strItem =>
      rw [specLoop_str_eq] at h
      have hm2 : symLast ∉ wordSyms rest := by
        simpa [wordSyms, List.filterMap_cons] using hmem
      rw [ih done todo b symLast res h hm2 hnz hne]
      simp [wordSyms, List.filterMap_cons]
    | tagItem t =>
      rw [specLoop_tag_eq] at h
      have hm2 : symLast ∉ wordSyms rest := by
        simpa [wordSyms, List.filterMap_cons] using hmem
      rw [ih done todo b symLast res h hm2 hnz hne]
      simp [wordSyms, List.filterMap_cons]
    | otherItem =>
      rw [specLoop_other_eq] at h
      exact absurd h (by simp)
    | blockItem attrs bits =>
      rw [specLoop_block_eq] at h
      have hm2 : symLast ∉ wordSyms rest := by
        simpa [wordSyms, List.filterMap_cons] using hmem
      split at h
      · cases done with
        | nil => exact absurd rfl hne
        | cons d dRest =>
          dsimp only [] at h
          rw [ih _ todo b symLast res h hm2 hnz (by simp)]
          simp [wordSyms, List.filterMap_cons, paramSyms, tsSym]
      · split at h
        · rw [ih done todo b symLast res h hm2 hnz hne]
          simp [wordSyms, List.filterMap_cons]
        · exact absurd h (by simp)
    | wordItem kind s =>
      rw [specLoop_word_eq] at h
      have hs : s ≠ symLast ∧ symLast ∉ wordSyms rest := by
        rw [wordSyms, List.filterMap_cons] at hmem
        simp only [List.mem_cons] at hmem
        push_neg at hmem
        exact ⟨fun hq => hmem.1 hq.symm, hmem.2⟩
      cases todo with
      | nil => exact absurd h (by simp)
      | cons t todoRest =>
        dsimp only [] at h
        split at h
        · exact absurd h (by simp)
        · next hsym =>
          rw [not_not] at hsym
          cases hk : applyWordKind kind t with
          | none => rw [hk] at h; exact absurd h (by simp)
          | some t2 =>
            rw [hk] at h
            dsimp only [] at h
            have ht2 : t2.sym = s := by rw [applyWordKind_sym kind t t2 hk, hsym]
            rw [if_neg (by rw [ht2]; exact hs.1)] at h
            cases done with
            | nil => exact absurd rfl hne
            | cons d dRest =>
              try dsimp only [] at h
              rw [ih _ todoRest b symLast res h hs.2 hnz (by simp)]
              simp only [wordSyms, List.filterMap_cons, paramSyms_cons,
                List.tail_cons, List.reverse_cons, ht2]
              simp

/-- Before the bubble has been found, a successful run with a requested
bubble symbol that occurs exactly once among the remaining parameters
produces the slots so far, then the other parameters in declaration
order, and the bubble symbol's entry last. -/
theorem specLoop_prebubble :
    ∀ (items : List SpecItem) (done todo : List Typeset)
      (symLast : Nat) (res : List Typeset),
    specLoop symLast items done todo none = Except.ok res →
    symLast ≠ 0 → (wordSyms items).count symLast = 1 → done ≠ [] →
    paramSyms res = (paramSyms done).reverse
      ++ (wordSyms items).erase symLast ++ [symLast] := by
  intro items
  induction items with
  | nil =>
    intro done todo symLast res h hnz hcount hne
    simp [wordSyms] at hcount
  | cons item rest ih =>
    intro done todo symLast res h hnz hcount hne
    cases item with
    | strItem =>
      rw [specLoop_str_eq] at h
      have hc2 : (wordSyms rest).count symLast = 1 := by
        simpa [wordSyms, List.filterMap_cons] using hcount
      rw [ih done todo symLast res h hnz hc2 hne]
      simp [wordSyms, List.filterMap_cons]
    | tagItem t =>
      rw [specLoop_tag_eq] at h
      have hc2 : (wordSyms rest).count symLast = 1 := by
        simpa [wordSyms, List.filterMap_cons] using hcount
      rw [ih done todo symLast res h hnz hc2 hne]
      simp [wordSyms, List.filterMap_cons]
    | otherItem =>
      rw [specLoop_other_eq] at h
      exact absurd h (by simp)
    | blockItem attrs bits =>
      rw [specLoop_block_eq] at h
      have hc2 : (wordSyms rest).count symLast = 1 := by
        simpa [wordSyms, List.filterMap_cons] using hcount
      split at h
      · cases done with
        | nil => exact absurd rfl hne
        | cons d dRest =>
          dsimp only [] at h
          rw [ih _ todo symLast res h hnz hc2 (by simp)]
          simp [wordSyms, List.filterMap_cons, paramSyms, tsSym]
      · split at h
        · rw [ih done todo symLast res h hnz hc2 hne]
          simp [wordSyms, List.filterMap_cons]
        · exact absurd h (by simp)
    | wordItem kind s =>
      rw [specLoop_word_eq] at h
      have hcount2 : (s :: wordSyms rest).count symLast = 1 := by
        simpa [wordSyms, List.filterMap_cons] using hcount
      cases todo with
      | nil => exact absurd h (by simp)
      | cons t todoRest =>
        dsimp only [] at h
        split at h
        · exact absurd h (by simp)
        · next hsym =>
          rw [not_not] at hsym
          cases hk : applyWordKind kind t with
          | none => rw [hk] at h; exact absurd h (by simp)
          | some t2 =>
            rw [hk] at h
            dsimp only [] at h
            have ht2 : t2.sym = s := by rw [applyWordKind_sym kind t t2 hk, hsym]
            by_cases hmatch : s = symLast
            · rw [if_pos (by rw [ht2, hmatch])] at h
              have hzero : (wordSyms rest).count symLast = 0 := by
                rw [hmatch] at hcount2
                simp only [List.count_cons_self] at hcount2
                omega
              have hnot : symLast ∉ wordSyms rest := by
                intro hmm
                have := List.count_pos_iff.mpr hmm
                omega
              rw [specLoop_bubbled rest (t2 :: done) todoRest t2 symLast res h
                hnot hnz (by simp)]
              have herase : (wordSyms (SpecItem.wordItem kind s :: rest)).erase symLast
                  = wordSyms rest := by
                simp [wordSyms, List.filterMap_cons, hmatch]
              rw [herase]
              simp only [List.tail_cons]
              rw [ht2, hmatch]
            · rw [if_neg (by rw [ht2]; exact hmatch)] at h
              try dsimp only [] at h
              have hc2 : (wordSyms rest).count symLast = 1 := by
                rw [List.count_cons] at hcount2
                simpa [fun q => hmatch (q : s = symLast)] using hcount2
              rw [ih _ todoRest symLast res h hnz hc2 (by simp)]
              have herase : (wordSyms (SpecItem.wordItem kind s :: rest)).erase symLast
                  = s :: (wordSyms rest).erase symLast := by
                have : wordSyms (SpecItem.wordItem kind s :: rest)
                    = s :: wordSyms rest := by
                  simp [wordSyms, List.filterMap_cons]
                rw [this, List.erase_cons_tail]
                simp [hmatch]
              rw [herase]
              simp only [paramSyms_cons, List.reverse_cons]
              rw [ht2]
              simp

/-- A successful keylist collection yields the declared symbols in
declaration order, without duplicates. -/
theorem collectSyms_ok :
    ∀ (items : List SpecItem) (acc keys : List Nat),
    collectSyms items acc = Except.ok keys →
    keys = acc ++ wordSyms items ∧ (acc.Nodup → keys.Nodup) := by
  intro items
  induction items with
  | nil =>
    intro acc keys h
    simp only [collectSyms] at h
    exact ⟨by rw [← Except.ok.inj h]; simp [wordSyms], fun ha => by
      rw [← Except.ok.inj h]; exact ha⟩
  | cons item rest ih =>
    intro acc keys h
    cases item with
    | wordItem kind s =>
      simp only [collectSyms] at h
      split at h
      · exact absurd h (by simp)
      · next hnotmem =>
        obtain ⟨h1, h2⟩ := ih (acc ++ [s]) keys h
        refine ⟨by rw [h1]; simp [wordSyms, List.filterMap_cons], fun ha => ?_⟩
        refine h2 ?_
        rw [List.nodup_append]
        exact ⟨ha, List.nodup_singleton s, by simpa [List.disjoint_singleton]⟩
    | strItem =>
      simp only [collectSyms] at h
      obtain ⟨h1, h2⟩ := ih acc keys h
      exact ⟨by rw [h1]; simp [wordSyms, List.filterMap_cons], h2⟩
    | tagItem t =>
      simp only [collectSyms] at h
      obtain ⟨h1, h2⟩ := ih acc keys h
      exact ⟨by rw [h1]; simp [wordSyms, List.filterMap_cons], h2⟩
    | blockItem attrs bits =>
      simp only [collectSyms] at h
      obtain ⟨h1, h2⟩ := ih acc keys h
      exact ⟨by rw [h1]; simp [wordSyms, List.filterMap_cons], h2⟩
    | otherItem =>
      simp only [collectSyms] at h
      obtain ⟨h1, h2⟩ := ih acc keys h
      exact ⟨by rw [h1]; simp [wordSyms, List.filterMap_cons], h2⟩

/-- C3: for every spec block accepted by Make_Paramlist_Managed and
every requested nonzero bubble symbol occurring among the declared
parameters, the resulting paramlist is slot 0 followed by the other
parameters' symbols in declaration order, with the bubble symbol's
entry in the final position. -/
theorem paramlist_bubble_invariant :
    ∀ (spec : List SpecItem) (symLast : Nat) (pl : List Typeset),
    symLast ≠ 0 → symLast ∈ wordSyms spec →
    Make_Paramlist_Managed spec symLast = Except.ok pl →
    paramSyms pl = 0 :: ((wordSyms spec).erase symLast ++ [symLast]) := by
  intro spec symLast pl hnz hmem h
  unfold Make_Paramlist_Managed at h
  cases hc : Collect_Keylist spec with
  | error k => rw [hc] at h; exact absurd h (by simp)
  | ok keys =>
    rw [hc] at h
    obtain ⟨hk, hnd⟩ := collectSyms_ok spec [] keys hc
    have hkeys : keys = wordSyms spec := by simpa using hk
    have hnodup : (wordSyms spec).Nodup := by
      rw [← hkeys]; exact hnd (List.nodup_nil)
    have hcount : (wordSyms spec).count symLast = 1 := by
      have hle := List.nodup_iff_count_le_one.mp hnodup symLast
      have hge := List.count_pos_iff.mpr hmem
      omega
    have := specLoop_prebubble spec [initTypeset 0] (keys.map initTypeset)
      symLast pl h hnz hcount (by simp)
    rw [this]
    simp [paramSyms, tsSym, initTypeset]

/-- Witness for C3: spec `[a ret: b]` with bubble symbol `ret` (7): the
paramlist symbols come out as slot 0, a, b, ret. -/
theorem paramlist_bubble_invariant_witness :
    paramSyms ((Make_Paramlist_Managed
        [SpecItem.wordItem WordKind.wordK 5,
         SpecItem.wordItem WordKind.setWordK 7,
         SpecItem.wordItem WordKind.wordK 6] 7).toOption.getD [])
      = [0, 5, 6, 7] :=
  paramlist_bubble_invariant
    [SpecItem.wordItem WordKind.wordK 5,
     SpecItem.wordItem WordKind.setWordK 7,
     SpecItem.wordItem WordKind.wordK 6] 7 _ (by decide) (by decide) (by rfl)

end RenC
